import Mathlib

/- Shallow embedding of the Legion-LLRI Vulkan backend:
   src/legion/engine/llri-vk/source.cpp,
   src/legion/engine/llri-vk/detail/adapter.cpp,
   src/legion/engine/llri/detail/instance_extensions.hpp.

   Native handles (VkInstance, VkPhysicalDevice, VkDevice) and C++ object
   addresses are modelled as natural numbers, with 0 standing for the null
   handle / null pointer.  Heap-allocated AdapterT objects live in an explicit
   association list keyed by their address, so object identity (pointer
   equality) is observable.  Native driver calls are modelled by explicit
   environments describing the outcome of each call.  Code paths that would
   dereference a null or dangling pointer (undefined behaviour) are modelled
   by returning none. -/

/-- Result codes of the LLRI taxonomy used by the translated code paths. -/
inductive Result where
  | Success
  | ErrorInvalidUsage
  | ErrorExtensionNotSupported
  | ErrorDeviceLost
  | ErrorDeviceRemoved
  | ErrorOutOfMemory
  | ErrorIncompatibleDriver
  | ErrorUnknown
deriving DecidableEq

/-- The vk::Result values relevant to the translated code paths. -/
inductive VkResult where
  | eSuccess
  | eTimeout
  | eIncomplete
  | eErrorOutOfHostMemory
  | eErrorOutOfDeviceMemory
  | eErrorInitializationFailed
  | eErrorIncompatibleDriver
  | eErrorDeviceLost
deriving DecidableEq

/-- Modelled from the spec: `internal::mapVkResult` is declared in
src/legion/engine/llri-vk/source.cpp but its definition is outside src/.
Per the spec's error-handling design, every native error is mapped to the
closest taxonomy member; native codes without a close member map to
ErrorUnknown. -/
def mapVkResult : VkResult → Result
  | VkResult.eSuccess => Result.Success
  | VkResult.eErrorOutOfHostMemory => Result.ErrorOutOfMemory
  | VkResult.eErrorOutOfDeviceMemory => Result.ErrorOutOfMemory
  | VkResult.eErrorIncompatibleDriver => Result.ErrorIncompatibleDriver
  | VkResult.eErrorDeviceLost => Result.ErrorDeviceLost
  | _ => Result.ErrorUnknown

/-- First entry of an association list with the given key, mirroring
std::map::find. -/
def alistFind {β : Type} (k : Nat) : List (Nat × β) → Option β
  | [] => none
  | (k', v) :: rest => if k = k' then some v else alistFind k rest

/-- Insert-or-overwrite on an association list, mirroring std::map
operator[] assignment. -/
def alistSet {β : Type} (k : Nat) (v : β) : List (Nat × β) → List (Nat × β)
  | [] => [(k, v)]
  | (k', v') :: rest =>
    if k = k' then (k', v) :: rest else (k', v') :: alistSet k v rest

/-- Update the value stored at a key, if present. -/
def alistUpdate {β : Type} (k : Nat) (f : β → β) : List (Nat × β) → List (Nat × β)
  | [] => []
  | (k', v) :: rest =>
    if k = k' then (k', f v) :: rest else (k', v) :: alistUpdate k f rest

/-- Underlying integer type of the C++ `enum struct instance_extension_type`. -/
abbrev instance_extension_type := Nat

/-- instance_extension_type::APIValidation. -/
def instance_extension_type.APIValidation : instance_extension_type := 0

/-- instance_extension_type::GPUValidation. -/
def instance_extension_type.GPUValidation : instance_extension_type := 1

/-- Payload struct api_validation_ext from instance_extensions.hpp. -/
structure api_validation_ext where
  enable : Bool
deriving DecidableEq

/-- Payload struct gpu_validation_ext from instance_extensions.hpp. -/
structure gpu_validation_ext where
  enable : Bool
deriving DecidableEq

/-- The C++ `struct instance_extension`: a type tag next to an UNTAGGED union
of `api_validation_ext` and `gpu_validation_ext`.  Both union members are
standard-layout structs consisting of the single bit-field `bool enable : 1`,
so they share one bit of storage; the union is modelled by that shared bit. -/
structure instance_extension where
  type : instance_extension_type
  unionEnableBit : Bool
deriving DecidableEq

/-- The C++ constructor `instance_extension(type, api_validation_ext)`:
stores whichever tag is passed next to the payload's bit. -/
def instance_extension.mkApi (t : instance_extension_type)
    (e : api_validation_ext) : instance_extension :=
  ⟨t, e.enable⟩

/-- The C++ constructor `instance_extension(type, gpu_validation_ext)`:
stores whichever tag is passed next to the payload's bit. -/
def instance_extension.mkGpu (t : instance_extension_type)
    (e : gpu_validation_ext) : instance_extension :=
  ⟨t, e.enable⟩

/-- Reading the union member `apiValidation`. -/
def instance_extension.apiValidation (x : instance_extension) : api_validation_ext :=
  ⟨x.unionEnableBit⟩

/-- Reading the union member `gpuValidation`. -/
def instance_extension.gpuValidation (x : instance_extension) : gpu_validation_ext :=
  ⟨x.unionEnableBit⟩

/-- Modelled from the spec: `queryInstanceExtensionSupport` is declared in
src/legion/engine/llri/detail/instance_extensions.hpp but defined outside
src/.  The spec requires it to be callable before creation calls and to
report support of each extension type; the supported set is exactly the set
of types the backend's createInstance implements (APIValidation and
GPUValidation). -/
def queryInstanceExtensionSupport (t : instance_extension_type) : Bool :=
  t == instance_extension_type.APIValidation ||
  t == instance_extension_type.GPUValidation

/-- AdapterT from source.cpp: m_ptr is the native VkPhysicalDevice handle,
0 when null (lost). -/
structure AdapterT where
  m_ptr : Nat
deriving DecidableEq

/-- InstanceT from source.cpp: the native VkInstance handle and the
m_cachedAdapters map from native physical-device handle to the address of
the cached AdapterT object. -/
structure InstanceT where
  m_ptr : Nat
  m_cachedAdapters : List (Nat × Nat)
deriving DecidableEq

/-- DeviceT from source.cpp: the native VkDevice handle. -/
structure DeviceT where
  m_ptr : Nat
deriving DecidableEq

/-- Heap of live AdapterT objects: address (never 0) to object, plus an
allocation counter; fresh allocations return address next + 1. -/
structure AdapterHeap where
  objs : List (Nat × AdapterT)
  next : Nat
deriving DecidableEq

/-- InstanceDesc fields read by createInstance in source.cpp; the extensions
pointer is none when null. -/
structure InstanceDesc where
  numExtensions : Nat
  extensions : Option (List instance_extension)
deriving DecidableEq

/-- Outcome of one native creation call (vkCreateInstance / vkCreateDevice):
the result code and, on success, the produced native handle. -/
structure CreateEnv where
  createResult : VkResult
  nativeHandle : Nat
deriving DecidableEq

/-- Observable outcome of createInstance: the returned Result, the Instance
written to the out parameter (none when nothing is written), and the
arguments of the vkCreateInstance call when one was made (the enabled layer
names and whether the GPU-validation feature chain was attached). -/
structure CreateInstanceOut where
  res : Result
  inst : Option InstanceT
  nativeCall : Option (List String × Bool)
deriving DecidableEq

/-- The extension loop of createInstance (source.cpp lines 37-68): walks the
requested extensions accumulating the validation layers and the
GPU-validation pNext chain; an extension type outside the handled cases hits
the default branch and fails the whole call with ErrorExtensionNotSupported. -/
def processExtensions : List instance_extension → List String → Bool →
    Except Result (List String × Bool)
  | [], layers, gpuVal => Except.ok (layers, gpuVal)
  | e :: rest, layers, gpuVal =>
    if e.type = instance_extension_type.APIValidation then
      processExtensions rest
        (if e.apiValidation.enable then layers ++ ["VK_LAYER_KHRONOS_validation"]
         else layers) gpuVal
    else if e.type = instance_extension_type.GPUValidation then
      processExtensions rest layers
        (if e.gpuValidation.enable then true else gpuVal)
    else
      Except.error Result.ErrorExtensionNotSupported

/-- createInstance from source.cpp.  `instanceOutSet` tells whether the
caller passed a non-null Instance* out pointer.  Reading desc.extensions[i]
for i beyond the extension array is undefined behaviour, modelled as none.
On the unsupported-extension path and on native failure the partially
created InstanceT is destroyed again (destroyInstance on a wrapper with an
empty cache and null m_ptr), so nothing observable remains. -/
def createInstance (desc : InstanceDesc) (instanceOutSet : Bool)
    (env : CreateEnv) : Option CreateInstanceOut :=
  if !instanceOutSet then
    some ⟨Result.ErrorInvalidUsage, none, none⟩
  else if desc.numExtensions > 0 ∧ desc.extensions = none then
    some ⟨Result.ErrorInvalidUsage, none, none⟩
  else if desc.numExtensions > (desc.extensions.getD []).length then
    none
  else
    match processExtensions ((desc.extensions.getD []).take desc.numExtensions) [] false with
    | Except.error r => some ⟨r, none, none⟩
    | Except.ok (layers, gpuVal) =>
      if env.createResult ≠ VkResult.eSuccess then
        some ⟨mapVkResult env.createResult, none, some (layers, gpuVal)⟩
      else
        some ⟨Result.Success, some ⟨env.nativeHandle, []⟩, some (layers, gpuVal)⟩

/-- Destruction actions the translated destroy functions can perform. -/
inductive DestroyEvent where
  | deleteAdapter (addr : Nat)
  | vkDestroyInstanceCall (handle : Nat)
  | vkDestroyDeviceCall (handle : Nat)
  | deleteInstanceObject
  | deleteDeviceObject
deriving DecidableEq

/-- destroyInstance from source.cpp (lines 88-99): no-op on null; otherwise
deletes every cached AdapterT and then deletes the InstanceT wrapper.  The
returned list is the sequence of destruction actions performed. -/
def destroyInstance (inst : Option InstanceT) : List DestroyEvent :=
  match inst with
  | none => []
  | some i =>
    (i.m_cachedAdapters.map (fun e => DestroyEvent.deleteAdapter e.2)) ++
    [DestroyEvent.deleteInstanceObject]

/-- Predicate picking out the native-instance destruction action. -/
def isNativeInstanceDestroy : DestroyEvent → Bool
  | DestroyEvent.vkDestroyInstanceCall _ => true
  | _ => false

/-- InstanceT::destroyDevice from source.cpp (lines 189-195): reads
device->m_ptr WITHOUT a null check, so a null device is undefined behaviour
(none); otherwise destroys the native device when its handle is non-null
and deletes the DeviceT wrapper. -/
def InstanceT.destroyDevice (device : Option DeviceT) : Option (List DestroyEvent) :=
  match device with
  | none => none
  | some d =>
    some ((if d.m_ptr ≠ 0 then [DestroyEvent.vkDestroyDeviceCall d.m_ptr] else []) ++
      [DestroyEvent.deleteDeviceObject])

/-- Native environment of one enumerateAdapters call: the result code and
count written by the first (count) query, the physical-device set present at
the second (contents) query, and an optional injected hard failure of the
contents query. -/
structure EnumEnv where
  r1 : VkResult
  n1 : Nat
  devs2 : List Nat
  r2fail : Option VkResult
deriving DecidableEq

/-- vkEnumeratePhysicalDevices with a buffer of the given capacity (the
std::vector resized to the first count, so entries not written keep the
value-initialized null handle 0): if the current set fits, it is written and
the call succeeds; if the set grew beyond the capacity, only capacity
entries are written and the call returns eIncomplete. -/
def contentsCall (env : EnumEnv) (capacity : Nat) : VkResult × List Nat :=
  match env.r2fail with
  | some e => (e, List.replicate capacity 0)
  | none =>
    if env.devs2.length ≤ capacity then
      (VkResult.eSuccess, env.devs2 ++ List.replicate (capacity - env.devs2.length) 0)
    else
      (VkResult.eIncomplete, env.devs2.take capacity)

/-- The marking phase of enumerateAdapters (source.cpp lines 106-108):
clear the m_ptr of every cached adapter, so adapters that are not
rediscovered stay behind as lost objects. -/
def clearCachedPtrs : List (Nat × Nat) → List (Nat × AdapterT) →
    List (Nat × AdapterT)
  | [], objs => objs
  | e :: rest, objs =>
    clearCachedPtrs rest (alistUpdate e.2 (fun ad => { ad with m_ptr := 0 }) objs)

/-- One iteration of the enumeration loop (source.cpp lines 125-141): if the
cache has an entry for the native handle, restore that entry's native
reference and push the cached object; otherwise allocate a new AdapterT,
set its native reference, cache it and push it. -/
def enumStep (cache : List (Nat × Nat)) (heap : AdapterHeap) (vec : List Nat)
    (pd : Nat) : List (Nat × Nat) × AdapterHeap × List Nat :=
  match alistFind pd cache with
  | some addr =>
    (cache,
     ⟨alistUpdate addr (fun ad => { ad with m_ptr := pd }) heap.objs, heap.next⟩,
     vec ++ [addr])
  | none =>
    (alistSet pd (heap.next + 1) cache,
     ⟨alistSet (heap.next + 1) ⟨pd⟩ heap.objs, heap.next + 1⟩,
     vec ++ [heap.next + 1])

/-- The enumeration loop over the returned physical devices. -/
def enumLoop : List Nat → List (Nat × Nat) → AdapterHeap → List Nat →
    List (Nat × Nat) × AdapterHeap × List Nat
  | [], cache, heap, vec => (cache, heap, vec)
  | pd :: rest, cache, heap, vec =>
    match enumStep cache heap vec pd with
    | (c, h, v) => enumLoop rest c h v

/-- InstanceT::enumerateAdapters from source.cpp (lines 101-144).  The
caller's vector is none when the adapters out pointer is null.  Returns the
Result together with the updated instance, adapter heap and vector. -/
def InstanceT.enumerateAdapters (inst : InstanceT) (heap : AdapterHeap)
    (adapters : Option (List Nat)) (env : EnumEnv) :
    Result × InstanceT × AdapterHeap × Option (List Nat) :=
  match adapters with
  | none => (Result.ErrorInvalidUsage, inst, heap, none)
  | some vec =>
    let heap1 : AdapterHeap := ⟨clearCachedPtrs inst.m_cachedAdapters heap.objs, heap.next⟩
    if env.r1 ≠ VkResult.eSuccess ∧ env.r1 ≠ VkResult.eTimeout then
      (mapVkResult env.r1, inst, heap1, some vec)
    else
      let res2 := contentsCall env env.n1
      if res2.1 ≠ VkResult.eSuccess then
        (mapVkResult res2.1, inst, heap1, some vec)
      else
        let fin := enumLoop res2.2 inst.m_cachedAdapters heap1 vec
        (Result.Success, ⟨inst.m_ptr, fin.1⟩, fin.2.1, some fin.2.2)

/-- Environment of a pair of enumeration queries in which the driver behaves
benignly and the device set does not change: the count query succeeds
reporting the set's size, and the same set is present at the contents query. -/
def benignEnv (devs : List Nat) : EnumEnv :=
  ⟨VkResult.eSuccess, devs.length, devs, none⟩

/-- Modelled from the spec: the DeviceDesc queue entry.  The declaration of
the queue descriptor struct is outside src/; the spec's DeviceDesc declares
`queueDescs[]`, each queue having a type and a priority ("queues are created
up front in the declared order with their declared priorities").  The
priority (a C float) is represented exactly as a rational. -/
structure QueueDesc where
  qtype : Nat
  priority : Rat
deriving DecidableEq

/-- The fields of vk::DeviceQueueCreateInfo set by createDevice. -/
structure VkDeviceQueueCreateInfo where
  queueFamilyIndex : Nat
  queueCount : Nat
  priorities : List Rat
deriving DecidableEq

/-- Modelled from the spec: a device-creation extension entry.  The struct's
declaration is outside src/; per the spec a requested extension is a
(type, payload) pair whose support is queried through
Adapter.queryExtensionSupport.  Only its type tag is relevant here. -/
structure AdapterExtension where
  type : Nat
deriving DecidableEq

/-- DeviceDesc: the fields adapter, numExtensions and extensions are the ones
read by createDevice in source.cpp (adapter is the address of an AdapterT,
0 when null; extensions is none when null).  The declaration of DeviceDesc
itself is outside src/; the field queueDescs is modelled from the spec's
`DeviceDesc{adapter, features, extensions[], queueDescs[]}`. -/
structure DeviceDesc where
  adapter : Nat
  numExtensions : Nat
  extensions : Option (List AdapterExtension)
  queueDescs : List QueueDesc
deriving DecidableEq

/-- Observable outcome of createDevice: the returned Result, the Device
written to the out parameter (none when nothing is written), the
vk::DeviceQueueCreateInfo entries passed to the native create call, and
whether vkCreateDevice was called at all. -/
structure CreateDeviceOut where
  res : Result
  device : Option DeviceT
  queueCIs : List VkDeviceQueueCreateInfo
  nativeCreateCalled : Bool
deriving DecidableEq

/-- InstanceT::createDevice from source.cpp (lines 146-187).  `deviceOutSet`
tells whether the caller passed a non-null Device* out pointer.  The desc's
extension list and queue list are never read beyond the extensions null
check: the local `queues` vector starts empty and, being empty, always
receives the single default vk::DeviceQueueCreateInfo{family 0, count 1,
priority 1.0f}.  A dangling adapter address (not a live heap object) would
be dereferenced, which is undefined behaviour (none). -/
def InstanceT.createDevice (inst : InstanceT) (heap : AdapterHeap)
    (desc : DeviceDesc) (deviceOutSet : Bool) (env : CreateEnv) :
    Option CreateDeviceOut :=
  if inst.m_ptr = 0 ∨ !deviceOutSet ∨ desc.adapter = 0 then
    some ⟨Result.ErrorInvalidUsage, none, [], false⟩
  else if desc.numExtensions > 0 ∧ desc.extensions = none then
    some ⟨Result.ErrorInvalidUsage, none, [], false⟩
  else
    match alistFind desc.adapter heap.objs with
    | none => none
    | some a =>
      if a.m_ptr = 0 then
        some ⟨Result.ErrorDeviceLost, none, [], false⟩
      else
        let queues : List VkDeviceQueueCreateInfo := []
        let queues := if queues.length = 0 then queues ++ [⟨0, 1, [1]⟩] else queues
        if env.createResult ≠ VkResult.eSuccess then
          some ⟨mapVkResult env.createResult, none, queues, true⟩
        else
          some ⟨Result.Success, some ⟨env.nativeHandle⟩, queues, true⟩

/-- AdapterT::queryExtensionSupport from source.cpp (lines 255-264): the
switch over the adapter extension type has no case besides default, and the
function returns false. -/
def AdapterT.queryExtensionSupport (_a : AdapterT) (t : Nat) : Bool :=
  match t with
  | _ => false

/-- Adapter::impl_queryExtensionSupport from
src/legion/engine/llri-vk/detail/adapter.cpp (lines 56-67): writes false to
the supported out parameter and returns Success, for every extension type. -/
def Adapter.impl_queryExtensionSupport (_a : AdapterT) (t : Nat) : Result × Bool :=
  (Result.Success,
   match t with
   | _ => false)

/-- Well-formedness of a reachable instance/heap pair: every cached adapter
address is a live heap object within the allocation bound, distinct cache
keys hold distinct objects, and every live address is within the allocation
bound.  Stated over list entries so it is decidable on concrete states. -/
def StateWF (inst : InstanceT) (heap : AdapterHeap) : Prop :=
  (∀ e ∈ inst.m_cachedAdapters, e.2 ≤ heap.next ∧ (alistFind e.2 heap.objs).isSome) ∧
  (∀ e ∈ inst.m_cachedAdapters, ∀ e' ∈ inst.m_cachedAdapters, e.2 = e'.2 → e.1 = e'.1) ∧
  (∀ e ∈ heap.objs, e.1 ≤ heap.next)

/-- The invariant carried through the enumeration loop, phrased through
lookups: cached addresses are bounded and live, the cache is injective, and
live addresses are bounded by the allocation counter. -/
def loopInv (c : List (Nat × Nat)) (h : AdapterHeap) : Prop :=
  (∀ pd a, alistFind pd c = some a → a ≤ h.next ∧ (alistFind a h.objs).isSome) ∧
  (∀ pd pd' a, alistFind pd c = some a → alistFind pd' c = some a → pd = pd') ∧
  (∀ a, (alistFind a h.objs).isSome → a ≤ h.next)

theorem alistFind_set {β : Type} (k a : Nat) (v : β) (l : List (Nat × β)) :
    alistFind a (alistSet k v l) = if a = k then some v else alistFind a l := by
  induction l with
  | nil => by_cases h : a = k <;> simp [alistSet, alistFind, h]
  | cons kv rest ih =>
    obtain ⟨k', v'⟩ := kv
    by_cases hk : k = k'
    · subst hk
      by_cases ha : a = k <;> simp [alistSet, alistFind, ha]
    · simp only [alistSet, if_neg hk]
      by_cases ha : a = k'
      · subst ha
        have hak : ¬a = k := fun h => hk h.symm
        simp [alistFind, hak]
      · simp [alistFind, ha, ih]

theorem alistFind_update {β : Type} (k a : Nat) (f : β → β) (l : List (Nat × β)) :
    alistFind a (alistUpdate k f l) =
      if a = k then (alistFind k l).map f else alistFind a l := by
  induction l with
  | nil => by_cases h : a = k <;> simp [alistUpdate, alistFind, h]
  | cons kv rest ih =>
    obtain ⟨k', v'⟩ := kv
    by_cases hk : k = k'
    · subst hk
      by_cases ha : a = k <;> simp [alistUpdate, alistFind, ha]
    · simp only [alistUpdate, if_neg hk]
      by_cases ha : a = k'
      · subst ha
        have hak : ¬a = k := fun h => hk h.symm
        simp [alistFind, hak]
      · simp [alistFind, ha, hk, ih]

theorem alistFind_update_isSome {β : Type} (k a : Nat) (f : β → β)
    (l : List (Nat × β)) :
    (alistFind a (alistUpdate k f l)).isSome = (alistFind a l).isSome := by
  rw [alistFind_update]
  by_cases h : a = k
  · subst h
    cases alistFind a l <;> simp
  · simp [h]

theorem alistFind_mem {β : Type} {k : Nat} {v : β} {l : List (Nat × β)}
    (h : alistFind k l = some v) : (k, v) ∈ l := by
  induction l with
  | nil => simp [alistFind] at h
  | cons e rest ih =>
    obtain ⟨k', v'⟩ := e
    by_cases hk : k = k'
    · subst hk
      have hv : v' = v := by simpa [alistFind] using h
      subst hv
      exact List.mem_cons_self _ _
    · simp only [alistFind, if_neg hk] at h
      exact List.mem_cons_of_mem _ (ih h)

theorem clearCachedPtrs_isSome (c : List (Nat × Nat))
    (objs : List (Nat × AdapterT)) (a : Nat) :
    (alistFind a (clearCachedPtrs c objs)).isSome = (alistFind a objs).isSome := by
  induction c generalizing objs with
  | nil => rfl
  | cons e rest ih =>
    rw [clearCachedPtrs, ih, alistFind_update_isSome]

theorem enumLoop_cons_found {pd0 : Nat} {rest : List Nat} {c : List (Nat × Nat)}
    {h : AdapterHeap} {v : List Nat} {a0 : Nat} (hf : alistFind pd0 c = some a0) :
    enumLoop (pd0 :: rest) c h v =
      enumLoop rest c
        ⟨alistUpdate a0 (fun ad => { ad with m_ptr := pd0 }) h.objs, h.next⟩
        (v ++ [a0]) := by
  simp [enumLoop, enumStep, hf]

theorem enumLoop_cons_new {pd0 : Nat} {rest : List Nat} {c : List (Nat × Nat)}
    {h : AdapterHeap} {v : List Nat} (hf : alistFind pd0 c = none) :
    enumLoop (pd0 :: rest) c h v =
      enumLoop rest (alistSet pd0 (h.next + 1) c)
        ⟨alistSet (h.next + 1) ⟨pd0⟩ h.objs, h.next + 1⟩
        (v ++ [h.next + 1]) := by
  simp [enumLoop, enumStep, hf]

theorem enumLoop_find_mono : ∀ (pds : List Nat) (c : List (Nat × Nat))
    (h : AdapterHeap) (v : List Nat) (pd a : Nat),
    alistFind pd c = some a → alistFind pd (enumLoop pds c h v).1 = some a := by
  intro pds
  induction pds with
  | nil =>
    intro c h v pd a hf
    simpa [enumLoop] using hf
  | cons pd0 rest ih =>
    intro c h v pd a hf
    cases hf0 : alistFind pd0 c with
    | some a0 =>
      rw [enumLoop_cons_found hf0]
      exact ih _ _ _ _ _ hf
    | none =>
      rw [enumLoop_cons_new hf0]
      apply ih
      have hne : ¬pd = pd0 := by
        intro e
        subst e
        rw [hf] at hf0
        cases hf0
      rw [alistFind_set, if_neg hne]
      exact hf

theorem enumLoop_find_exists : ∀ (pds : List Nat) (c : List (Nat × Nat))
    (h : AdapterHeap) (v : List Nat) (pd : Nat), pd ∈ pds →
    ∃ a, alistFind pd (enumLoop pds c h v).1 = some a := by
  intro pds
  induction pds with
  | nil =>
    intro c h v pd hmem
    cases hmem
  | cons pd0 rest ih =>
    intro c h v pd hmem
    rcases List.mem_cons.mp hmem with heq | hmem'
    · subst heq
      cases hf0 : alistFind pd c with
      | some a0 =>
        rw [enumLoop_cons_found hf0]
        exact ⟨a0, enumLoop_find_mono _ _ _ _ _ _ hf0⟩
      | none =>
        rw [enumLoop_cons_new hf0]
        refine ⟨h.next + 1, enumLoop_find_mono _ _ _ _ _ _ ?_⟩
        rw [alistFind_set, if_pos rfl]
    · cases hf0 : alistFind pd0 c with
      | some a0 =>
        rw [enumLoop_cons_found hf0]
        exact ih _ _ _ _ hmem'
      | none =>
        rw [enumLoop_cons_new hf0]
        exact ih _ _ _ _ hmem'

theorem enumLoop_cache_stable : ∀ (pds : List Nat) (c : List (Nat × Nat))
    (h : AdapterHeap) (v : List Nat),
    (∀ pd ∈ pds, ∃ a, alistFind pd c = some a) → (enumLoop pds c h v).1 = c := by
  intro pds
  induction pds with
  | nil => intro c h v _; rfl
  | cons pd0 rest ih =>
    intro c h v hall
    obtain ⟨a0, hf0⟩ := hall pd0 (List.mem_cons_self _ _)
    rw [enumLoop_cons_found hf0]
    exact ih _ _ _ (fun pd hm => hall pd (List.mem_cons_of_mem _ hm))

theorem enumLoop_vec_spec : ∀ (pds : List Nat) (c : List (Nat × Nat))
    (h : AdapterHeap) (v : List Nat),
    (enumLoop pds c h v).2.2 =
      v ++ pds.map (fun pd => (alistFind pd (enumLoop pds c h v).1).getD 0) := by
  intro pds
  induction pds with
  | nil => intro c h v; simp [enumLoop]
  | cons pd0 rest ih =>
    intro c h v
    cases hf0 : alistFind pd0 c with
    | some a0 =>
      rw [enumLoop_cons_found hf0, ih]
      have hm := enumLoop_find_mono rest c
        ⟨alistUpdate a0 (fun ad => { ad with m_ptr := pd0 }) h.objs, h.next⟩
        (v ++ [a0]) pd0 a0 hf0
      simp [hm]
    | none =>
      have hset : alistFind pd0 (alistSet pd0 (h.next + 1) c) = some (h.next + 1) := by
        rw [alistFind_set, if_pos rfl]
      rw [enumLoop_cons_new hf0, ih]
      have hm := enumLoop_find_mono rest (alistSet pd0 (h.next + 1) c)
        ⟨alistSet (h.next + 1) ⟨pd0⟩ h.objs, h.next + 1⟩
        (v ++ [h.next + 1]) pd0 (h.next + 1) hset
      simp [hm]

theorem enumLoop_next_mono : ∀ (pds : List Nat) (c : List (Nat × Nat))
    (h : AdapterHeap) (v : List Nat), h.next ≤ (enumLoop pds c h v).2.1.next := by
  intro pds
  induction pds with
  | nil => intro c h v; exact Nat.le_refl _
  | cons pd0 rest ih =>
    intro c h v
    cases hf0 : alistFind pd0 c with
    | some a0 =>
      rw [enumLoop_cons_found hf0]
      exact ih c ⟨alistUpdate a0 (fun ad => { ad with m_ptr := pd0 }) h.objs, h.next⟩ (v ++ [a0])
    | none =>
      rw [enumLoop_cons_new hf0]
      exact Nat.le_trans (Nat.le_succ _)
        (ih (alistSet pd0 (h.next + 1) c)
          ⟨alistSet (h.next + 1) ⟨pd0⟩ h.objs, h.next + 1⟩ (v ++ [h.next + 1]))

theorem enumLoop_find_new_large : ∀ (pds : List Nat) (c : List (Nat × Nat))
    (h : AdapterHeap) (v : List Nat) (pd a : Nat),
    alistFind pd (enumLoop pds c h v).1 = some a →
    alistFind pd c = some a ∨ h.next < a := by
  intro pds
  induction pds with
  | nil =>
    intro c h v pd a hf
    exact Or.inl (by simpa [enumLoop] using hf)
  | cons pd0 rest ih =>
    intro c h v pd a hf
    cases hf0 : alistFind pd0 c with
    | some a0 =>
      rw [enumLoop_cons_found hf0] at hf
      exact ih c ⟨alistUpdate a0 (fun ad => { ad with m_ptr := pd0 }) h.objs, h.next⟩
        (v ++ [a0]) pd a hf
    | none =>
      rw [enumLoop_cons_new hf0] at hf
      rcases ih (alistSet pd0 (h.next + 1) c)
        ⟨alistSet (h.next + 1) ⟨pd0⟩ h.objs, h.next + 1⟩
        (v ++ [h.next + 1]) pd a hf with hfound | hlarge
      · rw [alistFind_set] at hfound
        by_cases hpd : pd = pd0
        · rw [if_pos hpd] at hfound
          have : a = h.next + 1 := by
            injection hfound with he
            exact he.symm
          subst this
          exact Or.inr (Nat.lt_succ_self _)
        · rw [if_neg hpd] at hfound
          exact Or.inl hfound
      · exact Or.inr (Nat.lt_of_succ_lt hlarge)

theorem stepInv_found {c : List (Nat × Nat)} {h : AdapterHeap} {pd a0 : Nat}
    (_hf : alistFind pd c = some a0) (hinv : loopInv c h) :
    loopInv c ⟨alistUpdate a0 (fun ad => { ad with m_ptr := pd }) h.objs, h.next⟩ := by
  obtain ⟨hb, hinj, hhb⟩ := hinv
  refine ⟨?_, hinj, ?_⟩
  · intro pd' a' hfind
    obtain ⟨h1, h2⟩ := hb pd' a' hfind
    exact ⟨h1, by rw [alistFind_update_isSome]; exact h2⟩
  · intro a' hs
    rw [alistFind_update_isSome] at hs
    exact hhb a' hs

theorem stepInv_new {c : List (Nat × Nat)} {h : AdapterHeap} {pd : Nat}
    (_hf : alistFind pd c = none) (hinv : loopInv c h) :
    loopInv (alistSet pd (h.next + 1) c)
      ⟨alistSet (h.next + 1) ⟨pd⟩ h.objs, h.next + 1⟩ := by
  obtain ⟨hb, hinj, hhb⟩ := hinv
  refine ⟨?_, ?_, ?_⟩
  · intro pd' a' hfind
    rw [alistFind_set] at hfind
    by_cases hpd : pd' = pd
    · rw [if_pos hpd] at hfind
      have ha' : a' = h.next + 1 := by
        injection hfind with he
        exact he.symm
      subst ha'
      refine ⟨Nat.le_refl _, ?_⟩
      rw [alistFind_set, if_pos rfl]
      rfl
    · rw [if_neg hpd] at hfind
      obtain ⟨h1, h2⟩ := hb pd' a' hfind
      refine ⟨Nat.le_trans h1 (Nat.le_succ _), ?_⟩
      have hne : ¬a' = h.next + 1 := by omega
      rw [alistFind_set, if_neg hne]
      exact h2
  · intro p p' a' hf1 hf2
    rw [alistFind_set] at hf1 hf2
    by_cases hp : p = pd <;> by_cases hp' : p' = pd
    · rw [hp, hp']
    · rw [if_pos hp] at hf1
      rw [if_neg hp'] at hf2
      have ha' : a' = h.next + 1 := by
        injection hf1 with he
        exact he.symm
      subst ha'
      have := (hb p' _ hf2).1
      omega
    · rw [if_neg hp] at hf1
      rw [if_pos hp'] at hf2
      have ha' : a' = h.next + 1 := by
        injection hf2 with he
        exact he.symm
      subst ha'
      have := (hb p _ hf1).1
      omega
    · rw [if_neg hp] at hf1
      rw [if_neg hp'] at hf2
      exact hinj p p' a' hf1 hf2
  · intro a' hs
    rw [alistFind_set] at hs
    show a' ≤ h.next + 1
    by_cases ha' : a' = h.next + 1
    · omega
    · rw [if_neg ha'] at hs
      exact Nat.le_trans (hhb a' hs) (Nat.le_succ _)

theorem enumLoop_inv : ∀ (pds : List Nat) (c : List (Nat × Nat))
    (h : AdapterHeap) (v : List Nat), loopInv c h →
    loopInv (enumLoop pds c h v).1 (enumLoop pds c h v).2.1 := by
  intro pds
  induction pds with
  | nil => intro c h v hinv; simpa [enumLoop] using hinv
  | cons pd0 rest ih =>
    intro c h v hinv
    cases hf0 : alistFind pd0 c with
    | some a0 =>
      rw [enumLoop_cons_found hf0]
      exact ih _ _ _ (stepInv_found hf0 hinv)
    | none =>
      rw [enumLoop_cons_new hf0]
      exact ih _ _ _ (stepInv_new hf0 hinv)

theorem enumLoop_restore : ∀ (pds : List Nat) (c : List (Nat × Nat))
    (h : AdapterHeap) (v : List Nat), loopInv c h →
    (∀ a obj, alistFind a h.objs = some obj →
       alistFind a (enumLoop pds c h v).2.1.objs = some obj ∨
       ∃ pd, pd ∈ pds ∧ alistFind pd (enumLoop pds c h v).1 = some a) ∧
    (∀ pd, pd ∈ pds → ∀ a, alistFind pd (enumLoop pds c h v).1 = some a →
       alistFind a (enumLoop pds c h v).2.1.objs = some ⟨pd⟩) := by
  intro pds
  induction pds with
  | nil =>
    intro c h v _
    constructor
    · intro a obj hf
      exact Or.inl (by simpa [enumLoop] using hf)
    · intro pd hmem
      cases hmem
  | cons pd0 rest ih =>
    intro c h v hinv
    cases hf0 : alistFind pd0 c with
    | some a0 =>
      rw [enumLoop_cons_found hf0]
      have hinv1 : loopInv c
          ⟨alistUpdate a0 (fun ad => { ad with m_ptr := pd0 }) h.objs, h.next⟩ :=
        stepInv_found hf0 hinv
      have IH := ih c
        ⟨alistUpdate a0 (fun ad => { ad with m_ptr := pd0 }) h.objs, h.next⟩
        (v ++ [a0]) hinv1
      have hinvF := enumLoop_inv rest c
        ⟨alistUpdate a0 (fun ad => { ad with m_ptr := pd0 }) h.objs, h.next⟩
        (v ++ [a0]) hinv1
      have hmono := enumLoop_find_mono rest c
        ⟨alistUpdate a0 (fun ad => { ad with m_ptr := pd0 }) h.objs, h.next⟩
        (v ++ [a0]) pd0 a0 hf0
      have ha0live : (alistFind a0 h.objs).isSome = true := (hinv.1 pd0 a0 hf0).2
      have ha0 : alistFind a0
          (alistUpdate a0 (fun ad => { ad with m_ptr := pd0 }) h.objs) = some ⟨pd0⟩ := by
        rw [alistFind_update, if_pos rfl]
        obtain ⟨ad, had⟩ := Option.isSome_iff_exists.mp ha0live
        rw [had]
        rfl
      constructor
      · intro a obj hf
        by_cases haa : a = a0
        · subst haa
          exact Or.inr ⟨pd0, List.mem_cons_self _ _, hmono⟩
        · have hf1 : alistFind a
              (alistUpdate a0 (fun ad => { ad with m_ptr := pd0 }) h.objs) = some obj := by
            rw [alistFind_update, if_neg haa]
            exact hf
          rcases IH.1 a obj hf1 with hL | ⟨pd, hpd, hfind⟩
          · exact Or.inl hL
          · exact Or.inr ⟨pd, List.mem_cons_of_mem _ hpd, hfind⟩
      · intro pd hmem a hfind
        rcases List.mem_cons.mp hmem with heq | hmem'
        · rw [heq] at hfind ⊢
          have haeq : a = a0 := Option.some.inj (hfind.symm.trans hmono)
          rw [haeq]
          rcases IH.1 a0 ⟨pd0⟩ ha0 with hL | ⟨pd', hpd', hfind'⟩
          · exact hL
          · have hpp : pd' = pd0 := hinvF.2.1 pd' pd0 a0 hfind' hmono
            rw [hpp] at hpd' hfind'
            exact IH.2 pd0 hpd' a0 hfind'
        · exact IH.2 pd hmem' a hfind
    | none =>
      rw [enumLoop_cons_new hf0]
      have hinv1 := stepInv_new hf0 hinv
      have hc1 : alistFind pd0 (alistSet pd0 (h.next + 1) c) = some (h.next + 1) := by
        rw [alistFind_set, if_pos rfl]
      have IH := ih (alistSet pd0 (h.next + 1) c)
        ⟨alistSet (h.next + 1) ⟨pd0⟩ h.objs, h.next + 1⟩ (v ++ [h.next + 1]) hinv1
      have hinvF := enumLoop_inv rest (alistSet pd0 (h.next + 1) c)
        ⟨alistSet (h.next + 1) ⟨pd0⟩ h.objs, h.next + 1⟩ (v ++ [h.next + 1]) hinv1
      have hmono := enumLoop_find_mono rest (alistSet pd0 (h.next + 1) c)
        ⟨alistSet (h.next + 1) ⟨pd0⟩ h.objs, h.next + 1⟩ (v ++ [h.next + 1])
        pd0 (h.next + 1) hc1
      have ha0 : alistFind (h.next + 1)
          (alistSet (h.next + 1) ⟨pd0⟩ h.objs) = some ⟨pd0⟩ := by
        rw [alistFind_set, if_pos rfl]
      constructor
      · intro a obj hf
        have hne : ¬a = h.next + 1 := by
          have := hinv.2.2 a (by rw [hf]; rfl)
          omega
        have hf1 : alistFind a (alistSet (h.next + 1) ⟨pd0⟩ h.objs) = some obj := by
          rw [alistFind_set, if_neg hne]
          exact hf
        rcases IH.1 a obj hf1 with hL | ⟨pd, hpd, hfind⟩
        · exact Or.inl hL
        · exact Or.inr ⟨pd, List.mem_cons_of_mem _ hpd, hfind⟩
      · intro pd hmem a hfind
        rcases List.mem_cons.mp hmem with heq | hmem'
        · rw [heq] at hfind ⊢
          have haeq : a = h.next + 1 := Option.some.inj (hfind.symm.trans hmono)
          rw [haeq]
          rcases IH.1 (h.next + 1) ⟨pd0⟩ ha0 with hL | ⟨pd', hpd', hfind'⟩
          · exact hL
          · have hpp : pd' = pd0 := hinvF.2.1 pd' pd0 (h.next + 1) hfind' hmono
            rw [hpp] at hpd' hfind'
            exact IH.2 pd0 hpd' (h.next + 1) hfind'
        · exact IH.2 pd hmem' a hfind

theorem stateWF_loopInv {inst : InstanceT} {heap : AdapterHeap}
    (hwf : StateWF inst heap) :
    loopInv inst.m_cachedAdapters
      ⟨clearCachedPtrs inst.m_cachedAdapters heap.objs, heap.next⟩ := by
  obtain ⟨h1, h2, h3⟩ := hwf
  refine ⟨?_, ?_, ?_⟩
  · intro pd a hf
    obtain ⟨hb, hs⟩ := h1 (pd, a) (alistFind_mem hf)
    refine ⟨hb, ?_⟩
    show (alistFind a (clearCachedPtrs inst.m_cachedAdapters heap.objs)).isSome = true
    rw [clearCachedPtrs_isSome]
    exact hs
  · intro pd pd' a hf hf'
    exact h2 (pd, a) (alistFind_mem hf) (pd', a) (alistFind_mem hf') rfl
  · intro a hs
    have hs' : (alistFind a (clearCachedPtrs inst.m_cachedAdapters heap.objs)).isSome = true := hs
    rw [clearCachedPtrs_isSome] at hs'
    obtain ⟨obj, hobj⟩ := Option.isSome_iff_exists.mp hs'
    exact h3 (a, obj) (alistFind_mem hobj)

theorem enumerateAdapters_benign (inst : InstanceT) (heap : AdapterHeap)
    (vec devs : List Nat) :
    InstanceT.enumerateAdapters inst heap (some vec) (benignEnv devs) =
      (Result.Success,
       ⟨inst.m_ptr,
        (enumLoop devs inst.m_cachedAdapters
          ⟨clearCachedPtrs inst.m_cachedAdapters heap.objs, heap.next⟩ vec).1⟩,
       (enumLoop devs inst.m_cachedAdapters
          ⟨clearCachedPtrs inst.m_cachedAdapters heap.objs, heap.next⟩ vec).2.1,
       some (enumLoop devs inst.m_cachedAdapters
          ⟨clearCachedPtrs inst.m_cachedAdapters heap.objs, heap.next⟩ vec).2.2) := by
  simp [InstanceT.enumerateAdapters, benignEnv, contentsCall]

theorem processExtensions_unsupported : ∀ (l : List instance_extension)
    (layers : List String) (g : Bool),
    (∃ e ∈ l, queryInstanceExtensionSupport e.type = false) →
    processExtensions l layers g = Except.error Result.ErrorExtensionNotSupported := by
  intro l
  induction l with
  | nil =>
    intro layers g h
    rcases h with ⟨e, he, _⟩
    cases he
  | cons e0 rest ih =>
    intro layers g h
    by_cases h0 : e0.type = instance_extension_type.APIValidation
    · simp only [processExtensions, if_pos h0]
      apply ih
      rcases h with ⟨e, he, hq⟩
      rcases List.mem_cons.mp he with heq | hm
      · exfalso
        rw [heq, h0] at hq
        simp [queryInstanceExtensionSupport] at hq
      · exact ⟨e, hm, hq⟩
    · by_cases h1 : e0.type = instance_extension_type.GPUValidation
      · simp only [processExtensions, if_neg h0, if_pos h1]
        apply ih
        rcases h with ⟨e, he, hq⟩
        rcases List.mem_cons.mp he with heq | hm
        · exfalso
          rw [heq, h1] at hq
          simp [queryInstanceExtensionSupport] at hq
        · exact ⟨e, hm, hq⟩
      · simp only [processExtensions, if_neg h0, if_neg h1]

/-- C1: Each Adapter placed in the output by InstanceT::enumerateAdapters is
the previously cached object for its native handle when one exists (the cache
entry is reused with its native reference restored), and otherwise a freshly
allocated Adapter that is added to the cache; consequently enumerating twice
in a row over an unchanged native device set pushes the identical Adapter
objects (the same addresses, in the same order). -/
theorem enumerateAdapters_identity_preserved
    (inst : InstanceT) (heap : AdapterHeap) (vec1 : List Nat) (devs : List Nat)
    (hwf : StateWF inst heap)
    (r1 : Result) (inst1 : InstanceT) (heap1 : AdapterHeap) (out1 : List Nat)
    (h1 : InstanceT.enumerateAdapters inst heap (some vec1) (benignEnv devs) =
      (r1, inst1, heap1, some out1)) :
    r1 = Result.Success ∧
    out1 = vec1 ++ devs.map (fun pd => (alistFind pd inst1.m_cachedAdapters).getD 0) ∧
    (∀ pd a, alistFind pd inst.m_cachedAdapters = some a →
       alistFind pd inst1.m_cachedAdapters = some a) ∧
    (∀ pd, pd ∈ devs → ∃ a, alistFind pd inst1.m_cachedAdapters = some a ∧
       alistFind a heap1.objs = some ⟨pd⟩) ∧
    (∀ pd, pd ∈ devs → alistFind pd inst.m_cachedAdapters = none →
       ∀ a, alistFind pd inst1.m_cachedAdapters = some a → heap.next < a) ∧
    (∀ (vec2 out2 : List Nat) (r2 : Result) (inst2 : InstanceT) (heap2 : AdapterHeap),
       InstanceT.enumerateAdapters inst1 heap1 (some vec2) (benignEnv devs) =
         (r2, inst2, heap2, some out2) →
       r2 = Result.Success ∧
       out2 = vec2 ++ devs.map (fun pd => (alistFind pd inst1.m_cachedAdapters).getD 0)) := by
  rw [enumerateAdapters_benign] at h1
  injection h1 with hr h1'
  injection h1' with hinst h1''
  injection h1'' with hheap hout
  injection hout with houtv
  subst hheap
  subst houtv
  have hcache1 : inst1.m_cachedAdapters =
      (enumLoop devs inst.m_cachedAdapters
        ⟨clearCachedPtrs inst.m_cachedAdapters heap.objs, heap.next⟩ vec1).1 := by
    rw [← hinst]
  refine ⟨hr.symm, ?_, ?_, ?_, ?_, ?_⟩
  · rw [hcache1]
    exact enumLoop_vec_spec devs inst.m_cachedAdapters
      ⟨clearCachedPtrs inst.m_cachedAdapters heap.objs, heap.next⟩ vec1
  · intro pd a hf
    rw [hcache1]
    exact enumLoop_find_mono devs inst.m_cachedAdapters
      ⟨clearCachedPtrs inst.m_cachedAdapters heap.objs, heap.next⟩ vec1 pd a hf
  · intro pd hmem
    rw [hcache1]
    obtain ⟨a, ha⟩ := enumLoop_find_exists devs inst.m_cachedAdapters
      ⟨clearCachedPtrs inst.m_cachedAdapters heap.objs, heap.next⟩ vec1 pd hmem
    refine ⟨a, ha, ?_⟩
    exact (enumLoop_restore devs inst.m_cachedAdapters
      ⟨clearCachedPtrs inst.m_cachedAdapters heap.objs, heap.next⟩ vec1
      (stateWF_loopInv hwf)).2 pd hmem a ha
  · intro pd _hmem hnone a ha
    rw [hcache1] at ha
    rcases enumLoop_find_new_large devs inst.m_cachedAdapters
      ⟨clearCachedPtrs inst.m_cachedAdapters heap.objs, heap.next⟩ vec1 pd a ha with
      hfound | hlarge
    · rw [hnone] at hfound
      simp at hfound
    · exact hlarge
  · intro vec2 out2 r2 inst2 heap2 heq2
    rw [enumerateAdapters_benign] at heq2
    injection heq2 with hr2 heq2'
    injection heq2' with hinst2 heq2''
    injection heq2'' with hheap2 hout2
    injection hout2 with houtv2
    refine ⟨hr2.symm, ?_⟩
    rw [← houtv2, hcache1]
    have hall : ∀ pd ∈ devs, ∃ a,
        alistFind pd (enumLoop devs inst.m_cachedAdapters
          ⟨clearCachedPtrs inst.m_cachedAdapters heap.objs, heap.next⟩ vec1).1 = some a :=
      fun pd hm => enumLoop_find_exists devs inst.m_cachedAdapters
        ⟨clearCachedPtrs inst.m_cachedAdapters heap.objs, heap.next⟩ vec1 pd hm
    rw [enumLoop_vec_spec devs
      (enumLoop devs inst.m_cachedAdapters
        ⟨clearCachedPtrs inst.m_cachedAdapters heap.objs, heap.next⟩ vec1).1
      ⟨clearCachedPtrs
        (enumLoop devs inst.m_cachedAdapters
          ⟨clearCachedPtrs inst.m_cachedAdapters heap.objs, heap.next⟩ vec1).1
        (enumLoop devs inst.m_cachedAdapters
          ⟨clearCachedPtrs inst.m_cachedAdapters heap.objs, heap.next⟩ vec1).2.1.objs,
        (enumLoop devs inst.m_cachedAdapters
          ⟨clearCachedPtrs inst.m_cachedAdapters heap.objs, heap.next⟩ vec1).2.1.next⟩
      vec2,
      enumLoop_cache_stable devs
      (enumLoop devs inst.m_cachedAdapters
        ⟨clearCachedPtrs inst.m_cachedAdapters heap.objs, heap.next⟩ vec1).1
      ⟨clearCachedPtrs
        (enumLoop devs inst.m_cachedAdapters
          ⟨clearCachedPtrs inst.m_cachedAdapters heap.objs, heap.next⟩ vec1).1
        (enumLoop devs inst.m_cachedAdapters
          ⟨clearCachedPtrs inst.m_cachedAdapters heap.objs, heap.next⟩ vec1).2.1.objs,
        (enumLoop devs inst.m_cachedAdapters
          ⟨clearCachedPtrs inst.m_cachedAdapters heap.objs, heap.next⟩ vec1).2.1.next⟩
      vec2 hall]

/-- Concrete witness for enumerateAdapters_identity_preserved: a well-formed
state with one cached adapter for native handle 5, enumerated over the device
set consisting of handle 5 alone. -/
theorem enumerateAdapters_identity_preserved_witness :
    Result.Success = Result.Success ∧
    ([1] : List Nat) =
      [] ++ [5].map (fun pd => (alistFind pd ([(5, 1)] : List (Nat × Nat))).getD 0) := by
  have h := enumerateAdapters_identity_preserved ⟨1, [(5, 1)]⟩ ⟨[(1, ⟨5⟩)], 1⟩ [] [5]
    (by unfold StateWF; decide) Result.Success ⟨1, [(5, 1)]⟩ ⟨[(1, ⟨5⟩)], 1⟩ [1] (by decide)
  exact ⟨h.1, h.2.1⟩

theorem mapVkResult_success_iff (e : VkResult) :
    mapVkResult e = Result.Success ↔ e = VkResult.eSuccess := by
  cases e <;> simp [mapVkResult]

/-- C2 (code bug): at a concrete non-null instance with native handle 5 and
two cached adapters, destroyInstance deletes every cached Adapter and then
the InstanceT wrapper but performs no vkDestroyInstance call: the native
instance is never destroyed (destroyInstance(null) is a no-op as claimed). -/
theorem destroyInstance_no_native_destroy :
    destroyInstance (some ⟨5, [(7, 1), (8, 2)]⟩) =
      [DestroyEvent.deleteAdapter 1, DestroyEvent.deleteAdapter 2,
       DestroyEvent.deleteInstanceObject] ∧
    (destroyInstance (some ⟨5, [(7, 1), (8, 2)]⟩)).filter isNativeInstanceDestroy = [] ∧
    destroyInstance none = [] := by
  decide

/-- C3: on a valid instance, createDevice with a non-null but lost adapter
(native handle cleared) returns ErrorDeviceLost and writes no Device; a null
adapter, or a null device out-pointer, yields ErrorInvalidUsage. -/
theorem createDevice_lost_and_null_checks :
    (∀ (inst : InstanceT) (heap : AdapterHeap) (desc : DeviceDesc) (env : CreateEnv)
       (a : AdapterT),
       inst.m_ptr ≠ 0 →
       desc.adapter ≠ 0 →
       (desc.numExtensions > 0 → desc.extensions ≠ none) →
       alistFind desc.adapter heap.objs = some a →
       a.m_ptr = 0 →
       InstanceT.createDevice inst heap desc true env =
         some ⟨Result.ErrorDeviceLost, none, [], false⟩) ∧
    (∀ (inst : InstanceT) (heap : AdapterHeap) (desc : DeviceDesc) (env : CreateEnv)
       (outSet : Bool), desc.adapter = 0 →
       InstanceT.createDevice inst heap desc outSet env =
         some ⟨Result.ErrorInvalidUsage, none, [], false⟩) ∧
    (∀ (inst : InstanceT) (heap : AdapterHeap) (desc : DeviceDesc) (env : CreateEnv),
       InstanceT.createDevice inst heap desc false env =
         some ⟨Result.ErrorInvalidUsage, none, [], false⟩) := by
  refine ⟨?_, ?_, ?_⟩
  · intro inst heap desc env a hm hadapter hext hfind hlost
    have hc2 : ¬(desc.numExtensions > 0 ∧ desc.extensions = none) :=
      fun hand => hext hand.1 hand.2
    simp [InstanceT.createDevice, hm, hadapter, hc2, hfind, hlost]
  · intro inst heap desc env outSet h
    simp [InstanceT.createDevice, h]
  · intro inst heap desc env
    simp [InstanceT.createDevice]

/-- Concrete witness for createDevice_lost_and_null_checks: a live instance,
a cached adapter object whose native handle was cleared, an otherwise valid
descriptor. -/
theorem createDevice_lost_and_null_checks_witness :
    InstanceT.createDevice ⟨1, []⟩ ⟨[(1, ⟨0⟩)], 1⟩ ⟨1, 0, none, []⟩ true
        ⟨VkResult.eSuccess, 7⟩ =
      some ⟨Result.ErrorDeviceLost, none, [], false⟩ := by
  exact createDevice_lost_and_null_checks.1 ⟨1, []⟩ ⟨[(1, ⟨0⟩)], 1⟩ ⟨1, 0, none, []⟩
    ⟨VkResult.eSuccess, 7⟩ ⟨0⟩ (by decide) (by decide) (by decide) (by decide) rfl

/-- C5 (code bug): destroyInstance(null) is a safe no-op, but
InstanceT::destroyDevice(null) reads device->m_ptr without a null check, a
null-pointer dereference (undefined behaviour, modelled as none) instead of
returning without effect. -/
theorem destroyDevice_null_dereference :
    destroyInstance none = [] ∧ InstanceT.destroyDevice none = none := by
  decide

/-- C7 (code bug): when the device set grows between the count query (which
reported 1) and the contents query (which sees handles 5 and 6), the second
native call yields eIncomplete; enumerateAdapters does not tolerate this: it
returns early with the mapped eIncomplete code and appends no adapters.
Only eTimeout on the first (count) query is tolerated. -/
theorem enumerateAdapters_grown_set_not_tolerated :
    InstanceT.enumerateAdapters ⟨1, []⟩ ⟨[], 0⟩ (some [])
        ⟨VkResult.eSuccess, 1, [5, 6], none⟩ =
      (mapVkResult VkResult.eIncomplete, ⟨1, []⟩, ⟨[], 0⟩, some []) ∧
    mapVkResult VkResult.eIncomplete ≠ Result.Success := by
  decide

/-- C9: adapter extension support queries always report unsupported:
AdapterT::queryExtensionSupport returns false for every extension type, and
Adapter::impl_queryExtensionSupport writes false and returns Success for
every extension type. -/
theorem adapter_extension_support_always_false (a : AdapterT) (t : Nat) :
    AdapterT.queryExtensionSupport a t = false ∧
    Adapter.impl_queryExtensionSupport a t = (Result.Success, false) :=
  ⟨rfl, rfl⟩

/-- C4 counterexample: createDevice with one requested extension whose type
the adapter reports unsupported (queryExtensionSupport is false for every
type) succeeds instead of failing with ErrorExtensionNotSupported: the
extension array contents are never read. -/
theorem createDevice_unsupported_extension_succeeds :
    InstanceT.createDevice ⟨1, []⟩ ⟨[(1, ⟨5⟩)], 1⟩ ⟨1, 1, some [⟨0⟩], []⟩ true
        ⟨VkResult.eSuccess, 7⟩ =
      some ⟨Result.Success, some ⟨7⟩, [⟨0, 1, [1]⟩], true⟩ ∧
    AdapterT.queryExtensionSupport ⟨5⟩ 0 = false := by
  exact ⟨rfl, rfl⟩

/-- C4 (amended): createInstance is all-or-nothing: if any requested
instance extension type is unsupported the whole call fails with
ErrorExtensionNotSupported, no Instance is written and no native call is
made (no layer or validation feature is applied); createDevice, however,
never reads the contents of its extension array (only its null consistency),
so it ignores unsupported extension requests instead of failing. -/
theorem extension_negotiation_amended :
    (∀ (desc : InstanceDesc) (env : CreateEnv),
       desc.numExtensions ≤ (desc.extensions.getD []).length →
       (∃ e ∈ (desc.extensions.getD []).take desc.numExtensions,
          queryInstanceExtensionSupport e.type = false) →
       createInstance desc true env =
         some ⟨Result.ErrorExtensionNotSupported, none, none⟩) ∧
    (∀ (inst : InstanceT) (heap : AdapterHeap) (desc : DeviceDesc)
       (outSet : Bool) (env : CreateEnv) (l l' : List AdapterExtension),
       InstanceT.createDevice inst heap { desc with extensions := some l } outSet env =
       InstanceT.createDevice inst heap { desc with extensions := some l' } outSet env) := by
  constructor
  · intro desc env hlen hex
    have hproc := processExtensions_unsupported
      ((desc.extensions.getD []).take desc.numExtensions) [] false hex
    have hc2 : ¬(desc.numExtensions > 0 ∧ desc.extensions = none) := by
      intro hand
      rcases hex with ⟨e, he, _⟩
      rw [hand.2] at he
      simp at he
    have hc3 : ¬(desc.numExtensions > (desc.extensions.getD []).length) :=
      Nat.not_lt.mpr hlen
    simp [createInstance, hc2, hc3, hproc]
  · intro inst heap desc outSet env l l'
    simp [InstanceT.createDevice]

/-- Concrete witness for extension_negotiation_amended: one requested
extension with the unknown type tag 7 makes createInstance fail whole. -/
theorem extension_negotiation_amended_witness :
    createInstance ⟨1, some [⟨7, true⟩]⟩ true ⟨VkResult.eSuccess, 3⟩ =
      some ⟨Result.ErrorExtensionNotSupported, none, none⟩ := by
  exact extension_negotiation_amended.1 ⟨1, some [⟨7, true⟩]⟩ ⟨VkResult.eSuccess, 3⟩
    (by decide) ⟨⟨7, true⟩, by decide, by decide⟩

/-- C6 counterexample: a successful createDevice whose descriptor declares
two queues still passes exactly the single default queue-create info to the
native call: the declared queue set is not honoured (one create info against
two declared queues). -/
theorem createDevice_declared_queues_ignored :
    InstanceT.createDevice ⟨1, []⟩ ⟨[(1, ⟨5⟩)], 1⟩ ⟨1, 0, none, [⟨0, 1⟩, ⟨1, 1⟩]⟩ true
        ⟨VkResult.eSuccess, 7⟩ =
      some ⟨Result.Success, some ⟨7⟩, [⟨0, 1, [1]⟩], true⟩ ∧
    ([(⟨0, 1, [1]⟩ : VkDeviceQueueCreateInfo)]).length ≠
      ([⟨0, 1⟩, ⟨1, 1⟩] : List QueueDesc).length := by
  exact ⟨rfl, by decide⟩

/-- C6 (amended): every successful createDevice call passes exactly the
single default queue-create info (family 0, one queue, priority 1.0) to the
native create call, regardless of the descriptor's declared queue set, and
the whole outcome is independent of queueDescs; the default queue set is
used precisely because the local queue list is always empty. -/
theorem createDevice_default_queue :
    (∀ (inst : InstanceT) (heap : AdapterHeap) (desc : DeviceDesc)
       (outSet : Bool) (env : CreateEnv) (o : CreateDeviceOut),
       InstanceT.createDevice inst heap desc outSet env = some o →
       o.res = Result.Success →
       o.queueCIs = [⟨0, 1, [1]⟩] ∧ o.nativeCreateCalled = true) ∧
    (∀ (inst : InstanceT) (heap : AdapterHeap) (desc : DeviceDesc)
       (outSet : Bool) (env : CreateEnv) (q : List QueueDesc),
       InstanceT.createDevice inst heap { desc with queueDescs := q } outSet env =
       InstanceT.createDevice inst heap desc outSet env) := by
  constructor
  · intro inst heap desc outSet env o ho hres
    simp only [InstanceT.createDevice] at ho
    split at ho
    · injection ho with ho'
      rw [← ho'] at hres
      simp at hres
    · split at ho
      · injection ho with ho'
        rw [← ho'] at hres
        simp at hres
      · split at ho
        · exact Option.noConfusion ho
        · split at ho
          · injection ho with ho'
            rw [← ho'] at hres
            simp at hres
          · split at ho
            next hne =>
              injection ho with ho'
              rw [← ho'] at hres
              simp at hres
              exact absurd ((mapVkResult_success_iff env.createResult).mp hres) hne
            next hne =>
              injection ho with ho'
              rw [← ho']
              exact ⟨rfl, rfl⟩
  · intro inst heap desc outSet env q
    rfl

/-- Concrete witness for createDevice_default_queue: a successful creation
against a live adapter yields the default queue-create info. -/
theorem createDevice_default_queue_witness :
    ([⟨0, 1, [1]⟩] : List VkDeviceQueueCreateInfo) = [⟨0, 1, [1]⟩] ∧ true = true := by
  have h := createDevice_default_queue.1 ⟨1, []⟩ ⟨[(1, ⟨5⟩)], 1⟩ ⟨1, 0, none, []⟩ true
    ⟨VkResult.eSuccess, 7⟩ ⟨Result.Success, some ⟨7⟩, [⟨0, 1, [1]⟩], true⟩ rfl rfl
  exact ⟨h.1, h.2⟩

/-- C8 counterexample: a mismatched type/payload pair is constructible: the
C++ constructor taking an api_validation_ext payload accepts the
GPUValidation tag, producing a value whose tag is not APIValidation. -/
theorem instance_extension_mismatch_constructible :
    (instance_extension.mkApi instance_extension_type.GPUValidation ⟨true⟩).type ≠
      instance_extension_type.APIValidation := by
  decide

/-- C8 (amended): the instance_extension constructors accept any pairing of
tag and payload, so mismatched construction is not prevented; however the
two payload structs share the identical single-bit representation, so the
value built from an api_validation_ext payload equals the value built from
the gpu_validation_ext payload with the same bit, the stored tag is exactly
the tag passed, and reading either union member recovers that bit — the tag
alone determines how createInstance interprets the payload. -/
theorem instance_extension_tag_payload
    (t : instance_extension_type) (b : Bool) :
    instance_extension.mkApi t ⟨b⟩ = instance_extension.mkGpu t ⟨b⟩ ∧
    (instance_extension.mkApi t ⟨b⟩).type = t ∧
    (instance_extension.mkApi t ⟨b⟩).apiValidation = ⟨b⟩ ∧
    (instance_extension.mkApi t ⟨b⟩).gpuValidation = ⟨b⟩ :=
  ⟨rfl, rfl, rfl, rfl⟩

/-- C10: enumerateAdapters never clears the caller's vector: on every path
(argument validation failure, native failure, success) every element present
before the call is preserved at its position and any discovered Adapters are
appended after them. -/
theorem enumerateAdapters_appends_only
    (inst : InstanceT) (heap : AdapterHeap) (vec : List Nat) (env : EnumEnv)
    (r : Result) (inst' : InstanceT) (heap' : AdapterHeap) (out : Option (List Nat))
    (h : InstanceT.enumerateAdapters inst heap (some vec) env = (r, inst', heap', out)) :
    ∃ tail, out = some (vec ++ tail) := by
  simp only [InstanceT.enumerateAdapters] at h
  split at h
  · injection h with h1 h2
    injection h2 with h3 h4
    injection h4 with h5 h6
    refine ⟨[], ?_⟩
    rw [← h6]
    simp
  · split at h
    · injection h with h1 h2
      injection h2 with h3 h4
      injection h4 with h5 h6
      refine ⟨[], ?_⟩
      rw [← h6]
      simp
    · injection h with h1 h2
      injection h2 with h3 h4
      injection h4 with h5 h6
      refine ⟨(contentsCall env env.n1).2.map
        (fun pd => (alistFind pd
          (enumLoop (contentsCall env env.n1).2 inst.m_cachedAdapters
            ⟨clearCachedPtrs inst.m_cachedAdapters heap.objs, heap.next⟩ vec).1).getD 0), ?_⟩
      rw [← h6, enumLoop_vec_spec]

/-- Concrete witness for enumerateAdapters_appends_only: a vector already
holding the element 3 keeps it in front and the discovered adapter is
appended. -/
theorem enumerateAdapters_appends_only_witness :
    ∃ tail, (some [3, 1] : Option (List Nat)) = some ([3] ++ tail) := by
  exact enumerateAdapters_appends_only ⟨1, []⟩ ⟨[], 0⟩ [3] (benignEnv [5])
    Result.Success ⟨1, [(5, 1)]⟩ ⟨[(1, ⟨5⟩)], 1⟩ (some [3, 1]) (by decide)
